import Mathlib

/-!
Verification of the Reachy Mini Ranger perception-to-gaze pipeline.

This file shallowly embeds, in Lean 4 over exact rationals (ℚ standing for
the Python floats; all operations involved are order comparisons, +, -, *, /
and abs, which agree with IEEE semantics on the inputs considered unless
noted otherwise in a doc comment), the code of:

  * reachy_mini_ranger/brain/utils/kinematics.py
    (apply_safety_limits, ease_in_out_cubic, smooth_transition)
  * reachy_mini_ranger/brain/graph.py (execution_node safety filter)
  * reachy_mini_ranger/brain/models/state.py (HeadCommand pydantic model)
  * reachy_mini_ranger/brain/nodes/perception/face_tracker.py
    (estimate_3d_position, select_primary_face, id assignment in update/reset)

and proves the specified properties about these definitions.
-/

namespace Ranger

/-! ## kinematics.py -/

/-- Safety limit constant `HEAD_YAW_LIMIT = 180.0` from kinematics.py. -/
def HEAD_YAW_LIMIT : ℚ := 180

/-- Safety limit constant `HEAD_PITCH_LIMIT = 40.0` from kinematics.py. -/
def HEAD_PITCH_LIMIT : ℚ := 40

/-- Safety limit constant `HEAD_ROLL_LIMIT = 40.0` from kinematics.py. -/
def HEAD_ROLL_LIMIT : ℚ := 40

/-- Safety limit constant `BODY_HEAD_YAW_DIFF_LIMIT = 65.0` from kinematics.py. -/
def BODY_HEAD_YAW_DIFF_LIMIT : ℚ := 65

/-- The symmetric clamp pattern used by `apply_safety_limits` for pitch, roll
and absolute yaw: `if v > lim: lim elif v < -lim: -lim else v`.  The source
repeats this if/elif shape verbatim for each of the three axes (with the
corresponding limit constant); the `warn_on_clamp` logging is omitted as it
does not affect the returned values. -/
def clampSym (lim v : ℚ) : ℚ :=
  if v > lim then lim
  else if v < -lim then -lim
  else v

/-- The body-relative yaw clamp step of `apply_safety_limits`:
`yaw_diff = abs(clamped_yaw - body_yaw); if yaw_diff > 65: clamped_yaw =
body_yaw + 65 if clamped_yaw > body_yaw else body_yaw - 65`. -/
def clampRelToBody (body_yaw v : ℚ) : ℚ :=
  if |v - body_yaw| > BODY_HEAD_YAW_DIFF_LIMIT then
    (if v > body_yaw then body_yaw + BODY_HEAD_YAW_DIFF_LIMIT
     else body_yaw - BODY_HEAD_YAW_DIFF_LIMIT)
  else v

/-- Function `apply_safety_limits(yaw, pitch, roll, body_yaw)` from kinematics.py:
pitch and roll are clamped to `±40°`, yaw is clamped to `±180°` and the
result is then clamped to `body_yaw ± 65°`.  Returns
`(clamped_yaw, clamped_pitch, clamped_roll)`.  The `warn_on_clamp`
parameter controls logging only and is omitted. -/
def apply_safety_limits (yaw pitch roll body_yaw : ℚ) : ℚ × ℚ × ℚ :=
  (clampRelToBody body_yaw (clampSym HEAD_YAW_LIMIT yaw),
   clampSym HEAD_PITCH_LIMIT pitch,
   clampSym HEAD_ROLL_LIMIT roll)

/-- Function `ease_in_out_cubic(t)` from kinematics.py:
`4*t*t*t` for `t < 0.5`, else `1 - pow(-2*t + 2, 3) / 2`. -/
def ease_in_out_cubic (t : ℚ) : ℚ :=
  if t < 1/2 then 4 * t * t * t
  else 1 - (-2 * t + 2) ^ 3 / 2

/-- The `while angle > 180: angle -= 360` normalization loop of
`smooth_transition`. -/
def wrapDown (x : ℚ) : ℚ :=
  if h : 180 < x then wrapDown (x - 360) else x
termination_by (Int.ceil (x - 180)).toNat
decreasing_by
  have e : Int.ceil (x - 360 - 180) = Int.ceil (x - 180) - 360 := by
    have e2 : (x - 360 - 180 : ℚ) = (x - 180) + ((-360 : ℤ) : ℚ) := by push_cast; ring
    rw [e2, Int.ceil_add_int]; omega
  have hp : 0 < Int.ceil (x - 180) := Int.ceil_pos.mpr (by linarith)
  omega

/-- The `while angle < -180: angle += 360` normalization loop of
`smooth_transition`. -/
def wrapUp (x : ℚ) : ℚ :=
  if h : x < -180 then wrapUp (x + 360) else x
termination_by (Int.ceil (-180 - x)).toNat
decreasing_by
  have e : Int.ceil (-180 - (x + 360)) = Int.ceil (-180 - x) - 360 := by
    have e2 : (-180 - (x + 360) : ℚ) = (-180 - x) + ((-360 : ℤ) : ℚ) := by push_cast; ring
    rw [e2, Int.ceil_add_int]; omega
  have hp : 0 < Int.ceil (-180 - x) := Int.ceil_pos.mpr (by linarith)
  omega

/-- Function `smooth_transition(current_angle, target_angle, progress, easing)` from
kinematics.py.  `np.clip(progress, 0.0, 1.0)` is `min (max progress 0) 1`;
the easing dispatch maps `"cubic"` to `ease_in_out_cubic` and both
`"linear"` and any unknown easing name to the identity (the source logs a
warning for unknown names and then uses linear); the angle difference and
the interpolated result are each normalized by the two sequential `while`
loops (`wrapDown` then `wrapUp`), exactly as in the source. -/
def smooth_transition (current_angle target_angle progress : ℚ)
    (easing : String) : ℚ :=
  let progress2 := min (max progress 0) 1
  let eased_progress :=
    if easing = "cubic" then ease_in_out_cubic progress2 else progress2
  let angle_diff := wrapUp (wrapDown (target_angle - current_angle))
  let interpolated := current_angle + angle_diff * eased_progress
  wrapUp (wrapDown interpolated)

/-! ## graph.py: execution_node (the Safety Filter) -/

/-- The three head axes, used to record which axis a safety violation names.
The source appends a formatted string per violation (for example
`f"yaw {v}° > 180° (clamped)"`); we record the axis the string names, the
only content the claims are about. -/
inductive Axis where
  | yaw
  | pitch
  | roll
deriving DecidableEq

/-- The head command fields acted on by the safety filter
(`state.actuator_commands.head`).  The `duration` and interpolation-hint
fields are never read or written by `execution_node` and are omitted. -/
structure HeadCmd where
  yaw : ℚ
  pitch : ℚ
  roll : ℚ
deriving DecidableEq

/-- The safety-enforcement core of `execution_node` in graph.py: the three
`if cmd < -limit: record violation; cmd = -limit; elif cmd > limit: record
violation; cmd = limit` blocks, run on yaw (±180°), then pitch (±40°),
then roll (±40°), accumulating the violation records in order. -/
def enforceHead (h : HeadCmd) : HeadCmd × List Axis :=
  let yv : ℚ × List Axis :=
    if h.yaw < -180 then (-180, [Axis.yaw])
    else if h.yaw > 180 then (180, [Axis.yaw])
    else (h.yaw, [])
  let pv : ℚ × List Axis :=
    if h.pitch < -40 then (-40, [Axis.pitch])
    else if h.pitch > 40 then (40, [Axis.pitch])
    else (h.pitch, [])
  let rv : ℚ × List Axis :=
    if h.roll < -40 then (-40, [Axis.roll])
    else if h.roll > 40 then (40, [Axis.roll])
    else (h.roll, [])
  (⟨yv.1, pv.1, rv.1⟩, yv.2 ++ pv.2 ++ rv.2)

/-- A log entry appended by `execution_node` via `add_log`.  The source
builds timestamped strings; we record the structured content (the list of
violation axes, or the executed head command echoed by the execution log). -/
inductive LogEntry where
  | safety (violations : List Axis)
  | execLog (head : HeadCmd)
deriving DecidableEq

/-- The slice of `BrainState` read and written by `execution_node`:
`actuator_commands.head` and `metadata.logs`.  The remaining `BrainState`
sections are deep-copied unchanged by the node and are omitted; the
`metadata.timestamp` update (`datetime.now()`) is wall-clock environment
and is omitted. -/
structure BState where
  head : HeadCmd
  logs : List LogEntry
deriving DecidableEq

/-- Function `add_log` from state.py: append the entry, then keep only the last 100
entries (`logs[-100:]`). -/
def addLog (logs : List LogEntry) (e : LogEntry) : List LogEntry :=
  let l := logs ++ [e]
  if l.length > 100 then l.drop (l.length - 100) else l

/-- Function `execution_node(state)` from graph.py: deep-copy the state, clamp the
head command to the safety envelope recording violations, append a safety
log when any violation occurred, then append the execution log.  The
embedding is a total function: no branch of the source raises. -/
def execution_node (s : BState) : BState :=
  let hv := enforceHead s.head
  let logs1 :=
    if hv.2 ≠ [] then addLog s.logs (LogEntry.safety hv.2) else s.logs
  let logs2 := addLog logs1 (LogEntry.execLog hv.1)
  { head := hv.1, logs := logs2 }

/-! ## state.py: the HeadCommand pydantic model -/

/-- The `clamp_angles` field validator of `HeadCommand` in state.py, branch
`field_name == "yaw"`: `max(-180.0, min(180.0, v))`. -/
def clamp_angles_yaw (v : ℚ) : ℚ := max (-180) (min 180 v)

/-- The `clamp_angles` field validator of `HeadCommand` in state.py, branch
for pitch or roll: `max(-40.0, min(40.0, v))`. -/
def clamp_angles_pr (v : ℚ) : ℚ := max (-40) (min 40 v)

/-- Pydantic v2 construction of `HeadCommand(yaw=…, pitch=…, roll=…)` from
state.py.  The `Field(ge=…, le=…)` constraints (`yaw ∈ [-180, 180]`,
`pitch, roll ∈ [-40, 40]`) are part of the core schema and are checked
first; a value outside them raises `ValidationError`, modelled as `none`.
Only on accepted values does the `clamp_angles` after-mode field validator
run.  `duration` and the interpolation hint are not involved in any claim
and are omitted. -/
def mkHeadCommand (yaw pitch roll : ℚ) : Option HeadCmd :=
  if -180 ≤ yaw ∧ yaw ≤ 180 ∧ -40 ≤ pitch ∧ pitch ≤ 40
      ∧ -40 ≤ roll ∧ roll ≤ 40 then
    some ⟨clamp_angles_yaw yaw, clamp_angles_pr pitch, clamp_angles_pr roll⟩
  else none

/-! ## face_tracker.py: depth estimation -/

/-- The fields of a `Face` detection (state.py) read by
`estimate_3d_position` and the tracker: bounding-box top-left corner,
size and confidence. -/
structure FaceQ where
  x : ℚ
  y : ℚ
  width : ℚ
  height : ℚ
  confidence : ℚ
deriving DecidableEq

/-- Model `Position3D` from state.py. -/
structure Position3Q where
  x : ℚ
  y : ℚ
  z : ℚ
deriving DecidableEq

/-- Numpy clip `np.clip(v, lo, hi)`: `lo` where `v < lo`, `hi` where `v > hi`, else
`v`; for `lo ≤ hi` this is `min (max v lo) hi`. -/
def clipQ (v lo hi : ℚ) : ℚ := min (max v lo) hi

/-- The raw depth expression of `estimate_3d_position`:
`(focal_length_pixels * assumed_head_width) / face.width` with
`assumed_head_width = 0.2`.  At `face.width = 0` the float division of the
positive numerator by zero yields `+inf` rather than raising, modelled as
`none`; `np.clip` then maps `+inf` to the upper bound. -/
def rawDepth (focal width : ℚ) : Option ℚ :=
  if width = 0 then none else some (focal * 0.2 / width)

/-- The clamped depth of `estimate_3d_position`:
`np.clip(estimated_depth, 0.3, 5.0)`, with `+inf` (zero-width box, see
`rawDepth`) clipped to `5.0`. -/
def depthOf (focal width : ℚ) : ℚ :=
  match rawDepth focal width with
  | none => 5
  | some d => clipQ d 0.3 5

/-- Method `FaceTracker.estimate_3d_position(track, frame_width, frame_height,
camera_fov_horizontal)` from face_tracker.py.  The source computes
`focal_length_pixels = frame_width / (2 * tan(deg2rad(fov / 2)))`, a
positive real for the frame widths and FOVs in (0°, 180°) it is called
with; since `tan` is transcendental, the resulting focal length is taken
here as the parameter `focal`.  The rest mirrors the source: centroid from
the face bounding box, depth from `depthOf`, and the pixel-to-3D
back-projection (with the image-y inversion). -/
def estimate_3d_position (focal frame_width frame_height : ℚ)
    (face : FaceQ) : Position3Q :=
  let cx := face.x + face.width / 2
  let cy := face.y + face.height / 2
  let estimated_depth := depthOf focal face.width
  { x := (cx - frame_width / 2) / focal * estimated_depth
    y := -(cy - frame_height / 2) / focal * estimated_depth
    z := estimated_depth }

/-! ## face_tracker.py: primary face selection -/

/-- The fields of a `TrackedFace` read by `select_primary_face`: the
persistent id, the stored centroid `(cx, cy)`, the current face bounding
box size, and `tracking_confidence`. -/
structure TrackQ where
  id : ℕ
  cx : ℚ
  cy : ℚ
  width : ℚ
  height : ℚ
  confidence : ℚ
deriving DecidableEq

/-- The per-track `total_score` of `select_primary_face`:
`0.4 * centrality + 0.4 * size + 0.2 * confidence` where
`centrality = 1 - dist(centroid, frame_center) / norm(frame_center)` and
`size = sqrt(width * height / (frame_width * frame_height))`.  The source
computes the two Euclidean norms and the square root with floating-point
`np.linalg.norm` / `np.sqrt`; the square-root routine is taken as the
parameter `sqrtA` (applied to the squared norm, respectively to the area
ratio), so that concrete instances can be evaluated exactly on
perfect-square inputs. -/
def scoreOf (sqrtA : ℚ → ℚ) (frame_width frame_height : ℚ)
    (t : TrackQ) : ℚ :=
  let fcx := frame_width / 2
  let fcy := frame_height / 2
  let max_distance := sqrtA (fcx ^ 2 + fcy ^ 2)
  let distance_to_center := sqrtA ((t.cx - fcx) ^ 2 + (t.cy - fcy) ^ 2)
  let centrality_score := 1 - distance_to_center / max_distance
  let size_score :=
    sqrtA (t.width * t.height / (frame_width * frame_height))
  0.4 * centrality_score + 0.4 * size_score + 0.2 * t.confidence

/-- The selection loop of `select_primary_face`: starting from
`best_score = -1.0`, `best_id = None`, each track whose `total_score`
strictly exceeds the running best replaces it (`if total_score >
best_score`), so ties keep the earlier track. -/
def selectLoop (sqrtA : ℚ → ℚ) (fw fh : ℚ) :
    List TrackQ → ℚ → Option ℕ → ℚ × Option ℕ
  | [], best, bestId => (best, bestId)
  | t :: rest, best, bestId =>
    if best < scoreOf sqrtA fw fh t then
      selectLoop sqrtA fw fh rest (scoreOf sqrtA fw fh t) (some t.id)
    else
      selectLoop sqrtA fw fh rest best bestId

/-- Method `FaceTracker.select_primary_face(tracks, frame_width, frame_height)`
from face_tracker.py: `None` for an empty track list, otherwise the result
of the selection loop started at `best_score = -1.0`, `best_id = None`. -/
def select_primary_face (sqrtA : ℚ → ℚ) (tracks : List TrackQ)
    (fw fh : ℚ) : Option ℕ :=
  if tracks.length = 0 then none
  else (selectLoop sqrtA fw fh tracks (-1) none).2

/-- Specification-side selector: the first element of the list attaining
the maximal score (later elements replace the current choice only when
strictly better).  Used to state what `select_primary_face` returns. -/
def firstMax (f : TrackQ → ℚ) : List TrackQ → Option TrackQ
  | [] => none
  | t :: rest =>
    match firstMax f rest with
    | none => some t
    | some u => if f t < f u then some u else some t

/-! ## face_tracker.py: persistent id assignment (update / reset)

`FaceTracker.update` matches detections to tracks by greedy
nearest-centroid matching (floating-point distance matrix) and expires
tracks whose `last_seen` is older than `track_timeout` (wall-clock
`time.time()`).  Which detections are matched and which tracks are stale
therefore depends on geometry and real time; both are taken as parameters
of the step.  Given them, the id-assignment logic of `update` is embedded
exactly: every unmatched detection index creates a new track with id
`next_id`, after which `next_id` is incremented; expiry deletes tracks
without touching `next_id`; `reset` clears the tracks and sets
`next_id = 1`. -/

/-- The tracker state relevant to id assignment: the `next_id` counter and
the ids of the active tracks in insertion order (the keys of the `tracks`
dict). -/
structure TrackerS where
  nextId : ℕ
  trackIds : List ℕ
deriving DecidableEq

/-- Constructor `FaceTracker.__init__`: `next_id = 1`, no tracks. -/
def initTracker : TrackerS := ⟨1, []⟩

/-- The `for i, face in enumerate(faces): if i not in matched_detections:
…` loop of `update`, over the list of detection indices: each unmatched
index creates a track with id `next_id` and increments `next_id`.
Returns the new state and the list of assigned ids in creation order. -/
def createLoop (matched : List ℕ) : List ℕ → TrackerS → TrackerS × List ℕ
  | [], s => (s, [])
  | i :: rest, s =>
    if i ∈ matched then createLoop matched rest s
    else
      let s2 : TrackerS := ⟨s.nextId + 1, s.trackIds ++ [s.nextId]⟩
      let r := createLoop matched rest s2
      (r.1, s.nextId :: r.2)

/-- One `FaceTracker.update(faces)` call, given the matching and staleness
outcomes: create tracks for unmatched detection indices, then delete the
stale tracks (`del self.tracks[tid]`, which leaves `next_id` unchanged). -/
def updateStep (numFaces : ℕ) (matched stale : List ℕ)
    (s : TrackerS) : TrackerS × List ℕ :=
  let r := createLoop matched (List.range numFaces) s
  (⟨r.1.nextId, r.1.trackIds.filter (fun i => i ∉ stale)⟩, r.2)

/-- An observable operation on the tracker: an `update` call (with its
environment-determined matching and staleness outcomes) or a `reset`. -/
inductive TrackerOp where
  | update (numFaces : ℕ) (matched stale : List ℕ)
  | reset
deriving DecidableEq

/-- One tracker operation; `reset` is `FaceTracker.reset`:
`tracks.clear(); next_id = 1`.  Returns the new state and the persistent
ids assigned during the operation. -/
def stepOp (s : TrackerS) : TrackerOp → TrackerS × List ℕ
  | TrackerOp.update n m st => updateStep n m st s
  | TrackerOp.reset => (⟨1, []⟩, [])

/-- Run a sequence of tracker operations from a state, collecting every
persistent id assigned to a newly created track, in assignment order. -/
def runOps (s : TrackerS) : List TrackerOp → TrackerS × List ℕ
  | [] => (s, [])
  | op :: rest =>
    let r := stepOp s op
    let r2 := runOps r.1 rest
    (r2.1, r.2 ++ r2.2)

/-! ## Concrete inputs used in counterexamples and witnesses -/

/-- Face used in the C6 counterexample: bounding box `1 × 1` at
`(319.5, 100)`, so its centroid is `(320, 100.5)`; confidence 0.9. -/
def ceFaceSmall : FaceQ := ⟨319.5, 100, 1, 1, 0.9⟩

/-- Face used in the C6 counterexample: strictly wider bounding box
`2 × 1` at `(319, 100)`, with the same centroid `(320, 100.5)` and the
same confidence as `ceFaceSmall`. -/
def ceFaceLarge : FaceQ := ⟨319, 100, 2, 1, 0.9⟩

/-- An exact model of `np.sqrt` restricted to the perfect-square inputs
arising in the concrete `select_primary_face` instances below:
`sqrt 1960000 = 1400` (squared distance of the counterexample centroid to
the frame center), `sqrt 160000 = 400` (squared norm of the 640×480 frame
center) and `sqrt 0 = 0` (zero squared distance, zero area ratio). -/
def mySqrt (q : ℚ) : ℚ :=
  if q = 1960000 then 1400 else if q = 160000 then 400 else 0

/-- The C7 counterexample track: centroid `(1720, 240)`, 1400 px from the
center of a 640×480 frame (3.5 × the 400 px maximal in-frame distance),
zero-area box and zero tracking confidence, giving a total score of
exactly -1. -/
def ceTrackFar : TrackQ := ⟨7, 1720, 240, 0, 0, 0⟩

/-- The C7 witness track: centroid exactly at the 640×480 frame center,
zero-area box, tracking confidence 1, total score `0.4 + 0 + 0.2 = 0.6`. -/
def goodTrack : TrackQ := ⟨3, 320, 240, 0, 0, 1⟩

/-- The C8 counterexample operation sequence: one detection creating a
track, a `reset()`, and another single detection. -/
def ceOps : List TrackerOp :=
  [TrackerOp.update 1 [] [], TrackerOp.reset, TrackerOp.update 1 [] []]

/-! ## Helper lemmas -/

/-- The symmetric clamp is the `[-lim, lim]` interval clamp (for a
nonnegative limit). -/
lemma clampSym_eq (lim v : ℚ) (hlim : 0 ≤ lim) :
    clampSym lim v = min lim (max (-lim) v) := by
  unfold clampSym
  simp only [min_def, max_def]
  split_ifs <;> linarith

/-- The body-relative clamp is the `[body_yaw - 65, body_yaw + 65]`
interval clamp. -/
lemma clampRelToBody_eq (b v : ℚ) :
    clampRelToBody b v = min (b + 65) (max (b - 65) v) := by
  unfold clampRelToBody BODY_HEAD_YAW_DIFF_LIMIT
  rcases abs_cases (v - b) with ⟨he, hs⟩ | ⟨he, hs⟩ <;>
    rw [he] <;> simp only [min_def, max_def] <;> split_ifs <;> linarith

/-- Interval clamping is idempotent. -/
lemma clamp_interval_idem (lo hi x : ℚ) (h : lo ≤ hi) :
    min hi (max lo (min hi (max lo x))) = min hi (max lo x) := by
  simp only [min_def, max_def]
  split_ifs <;> linarith

/-- Re-clamping the yaw produced by `apply_safety_limits` (body-relative
clamp after absolute clamp) gives it back, for any starting value in
`[-180, 180]`. -/
lemma yaw_clamp_idem (b z : ℚ) (h1 : -180 ≤ z) (h2 : z ≤ 180) :
    min (b + 65) (max (b - 65)
      (min 180 (max (-180) (min (b + 65) (max (b - 65) z)))))
    = min (b + 65) (max (b - 65) z) := by
  simp only [min_def, max_def]
  split_ifs <;> linarith

/-! ## Claim theorems C1 - C4 -/

/-- Claim C2: the Safety Filter's enforce step applied to the head command
`(yaw=200, pitch=-50, roll=50)` yields `(180, -40, 40)` together with
exactly three violation records, one naming each of the yaw, pitch and
roll axes. -/
theorem enforceHead_example :
    enforceHead ⟨200, -50, 50⟩
      = (⟨180, -40, 40⟩, [Axis.yaw, Axis.pitch, Axis.roll]) := by
  decide

/-- Claim C1: for every input state, the head command in the state
returned by `execution_node` satisfies yaw ∈ [-180, 180], pitch ∈
[-40, 40] and roll ∈ [-40, 40].  The embedding of `execution_node` is a
total function (every branch of the source merely compares, assigns and
appends), which captures that the node never raises. -/
theorem execution_node_head_in_envelope (s : BState) :
    -180 ≤ (execution_node s).head.yaw ∧ (execution_node s).head.yaw ≤ 180
    ∧ -40 ≤ (execution_node s).head.pitch ∧ (execution_node s).head.pitch ≤ 40
    ∧ -40 ≤ (execution_node s).head.roll ∧ (execution_node s).head.roll ≤ 40 := by
  unfold execution_node enforceHead
  dsimp only
  split_ifs <;> dsimp only <;>
    refine ⟨by linarith, by linarith, by linarith, by linarith,
      by linarith, by linarith⟩

/-- Claim C3: `apply_safety_limits` returns pitch and roll clamped into
`[-40, 40]`, and yaw first clamped into `[-180, 180]` and then into
`[body_yaw - 65, body_yaw + 65]` (the body-relative clamp is applied
second, hence takes precedence whenever it is tighter), so the returned
yaw always lies within 65 degrees of `body_yaw`. -/
theorem apply_safety_limits_spec (yaw pitch roll body_yaw : ℚ) :
    apply_safety_limits yaw pitch roll body_yaw
      = (min (body_yaw + 65) (max (body_yaw - 65) (min 180 (max (-180) yaw))),
         min 40 (max (-40) pitch),
         min 40 (max (-40) roll))
    ∧ |(apply_safety_limits yaw pitch roll body_yaw).1 - body_yaw| ≤ 65
    ∧ -40 ≤ (apply_safety_limits yaw pitch roll body_yaw).2.1
    ∧ (apply_safety_limits yaw pitch roll body_yaw).2.1 ≤ 40
    ∧ -40 ≤ (apply_safety_limits yaw pitch roll body_yaw).2.2
    ∧ (apply_safety_limits yaw pitch roll body_yaw).2.2 ≤ 40 := by
  have he : apply_safety_limits yaw pitch roll body_yaw
      = (min (body_yaw + 65) (max (body_yaw - 65) (min 180 (max (-180) yaw))),
         min 40 (max (-40) pitch),
         min 40 (max (-40) roll)) := by
    unfold apply_safety_limits HEAD_YAW_LIMIT HEAD_PITCH_LIMIT HEAD_ROLL_LIMIT
    rw [clampSym_eq _ _ (by norm_num), clampSym_eq _ _ (by norm_num),
      clampSym_eq _ _ (by norm_num), clampRelToBody_eq]
  rw [he]
  dsimp only
  refine ⟨rfl, abs_le.mpr ⟨?_, ?_⟩, ?_, ?_, ?_, ?_⟩
  · have : body_yaw - 65 ≤ min (body_yaw + 65)
        (max (body_yaw - 65) (min 180 (max (-180) yaw))) :=
      le_min (by linarith) (le_max_left _ _)
    linarith
  · have : min (body_yaw + 65)
        (max (body_yaw - 65) (min 180 (max (-180) yaw))) ≤ body_yaw + 65 :=
      min_le_left _ _
    linarith
  · exact le_min (by norm_num) (le_max_left _ _)
  · exact min_le_left _ _
  · exact le_min (by norm_num) (le_max_left _ _)
  · exact min_le_left _ _

/-- Claim C4: applying `apply_safety_limits` twice with the same
`body_yaw` yields the same `(yaw, pitch, roll)` triple as applying it
once. -/
theorem apply_safety_limits_idem (yaw pitch roll body_yaw : ℚ) :
    apply_safety_limits
      (apply_safety_limits yaw pitch roll body_yaw).1
      (apply_safety_limits yaw pitch roll body_yaw).2.1
      (apply_safety_limits yaw pitch roll body_yaw).2.2
      body_yaw
    = apply_safety_limits yaw pitch roll body_yaw := by
  unfold apply_safety_limits HEAD_YAW_LIMIT HEAD_PITCH_LIMIT HEAD_ROLL_LIMIT
  rw [clampSym_eq _ _ (by norm_num), clampSym_eq _ _ (by norm_num),
    clampSym_eq _ _ (by norm_num), clampRelToBody_eq,
    clampSym_eq _ _ (by norm_num), clampSym_eq _ _ (by norm_num),
    clampSym_eq _ _ (by norm_num), clampRelToBody_eq]
  refine Prod.ext ?_ (Prod.ext ?_ ?_) <;> dsimp only
  · exact yaw_clamp_idem body_yaw (min 180 (max (-180) yaw))
      (le_min (by norm_num) (le_max_left _ _)) (min_le_left _ _)
  · exact clamp_interval_idem (-40) 40 pitch (by norm_num)
  · exact clamp_interval_idem (-40) 40 roll (by norm_num)

/-- Loop `wrapDown` leaves values at most 180 unchanged. -/
lemma wrapDown_of_le {x : ℚ} (h : x ≤ 180) : wrapDown x = x := by
  rw [wrapDown]
  simp [not_lt.mpr h]

/-- One iteration of the `wrapDown` loop. -/
lemma wrapDown_step {x : ℚ} (h : 180 < x) : wrapDown x = wrapDown (x - 360) := by
  rw [wrapDown]
  simp [h]

/-- Loop `wrapUp` leaves values at least -180 unchanged. -/
lemma wrapUp_of_ge {x : ℚ} (h : -180 ≤ x) : wrapUp x = x := by
  rw [wrapUp]
  simp [not_lt.mpr h]

/-- One iteration of the `wrapUp` loop. -/
lemma wrapUp_step {x : ℚ} (h : x < -180) : wrapUp x = wrapUp (x + 360) := by
  rw [wrapUp]
  simp [h]

/-! ## Claim theorem C9 -/

/-- Claim C9: `smooth_transition` from a current yaw of 170° to a target
of -170° at progress 0.5 (cubic easing) follows the shortest path through
the ±180° wrap: the normalized difference is +20°, and the result is
exactly 180° — at the ±180° boundary and nowhere near 0°. -/
theorem smooth_transition_wrap_example :
    smooth_transition 170 (-170) (1/2) "cubic" = 180 := by
  unfold smooth_transition
  have hd : wrapUp (wrapDown ((-170 : ℚ) - 170)) = 20 := by
    have e1 : ((-170 : ℚ) - 170) = -340 := by norm_num
    have e2 : ((-340 : ℚ) + 360) = 20 := by norm_num
    rw [e1, @wrapDown_of_le (-340) (by norm_num),
      @wrapUp_step (-340) (by norm_num), e2,
      @wrapUp_of_ge 20 (by norm_num)]
  have he : ease_in_out_cubic (min (max (1/2 : ℚ) 0) 1) = 1/2 := by
    unfold ease_in_out_cubic
    norm_num
  simp only [reduceIte, hd, he]
  have e3 : (170 : ℚ) + 20 * (1/2) = 180 := by norm_num
  rw [e3, @wrapDown_of_le 180 (by norm_num), @wrapUp_of_ge 180 (by norm_num)]

/-! ## Claim theorem C5 -/

/-- Claim C5: the depth component returned by `estimate_3d_position` lies
within `[0.3, 5.0]` meters for every face (in particular every face with
positive bounding-box width), and a zero-width box is handled locally —
the infinite raw depth from the division by zero is clamped to 5.0 meters,
the top of the valid range, rather than propagating a division fault (the
embedding is a total function). -/
theorem estimate_3d_position_z_in_range (focal fw fh : ℚ) (face : FaceQ) :
    (0.3 ≤ (estimate_3d_position focal fw fh face).z
      ∧ (estimate_3d_position focal fw fh face).z ≤ 5)
    ∧ (face.width = 0 → (estimate_3d_position focal fw fh face).z = 5) := by
  unfold estimate_3d_position depthOf rawDepth clipQ
  dsimp only
  constructor
  · split
    · norm_num
    · constructor
      · exact le_min (le_max_right _ _) (by norm_num)
      · exact min_le_right _ _
  · intro h0
    simp [h0]

/-- Witness for the C5 theorem at a zero-width face and the 554 px focal
length: its depth estimate is exactly 5.0 m, inside the valid range. -/
theorem estimate_3d_position_z_in_range_witness :
    (0.3 ≤ (estimate_3d_position 554 640 480 ⟨100, 100, 0, 0, 1⟩).z
      ∧ (estimate_3d_position 554 640 480 ⟨100, 100, 0, 0, 1⟩).z ≤ 5)
    ∧ ((⟨100, 100, 0, 0, 1⟩ : FaceQ).width = 0 →
        (estimate_3d_position 554 640 480 ⟨100, 100, 0, 0, 1⟩).z = 5) :=
  estimate_3d_position_z_in_range 554 640 480 ⟨100, 100, 0, 0, 1⟩

/-! ## Claim C6: counterexample, amended theorem, witness -/

/-- Claim C6 is false as stated: with the focal length 554 px (the source
computes `frame_width / (2·tan(fov/2))` ≈ 554.26 px for the 640 px, 60°
camera), both a 1 px wide and a 2 px wide box produce raw depths above
5.0 m (110.8 m and 55.4 m), and both are clamped to 5.0 m.  The two faces
have equal centroids and equal confidence, the second box is strictly
larger, yet its estimated depth is not strictly smaller. -/
theorem estimate_3d_depth_not_strictly_monotone :
    (ceFaceSmall.x + ceFaceSmall.width / 2
        = ceFaceLarge.x + ceFaceLarge.width / 2)
    ∧ (ceFaceSmall.y + ceFaceSmall.height / 2
        = ceFaceLarge.y + ceFaceLarge.height / 2)
    ∧ ceFaceSmall.confidence = ceFaceLarge.confidence
    ∧ ceFaceSmall.width < ceFaceLarge.width
    ∧ ¬ ((estimate_3d_position 554 640 480 ceFaceLarge).z
          < (estimate_3d_position 554 640 480 ceFaceSmall).z) := by
  norm_num [estimate_3d_position, depthOf, rawDepth, clipQ,
    ceFaceSmall, ceFaceLarge, min_def, max_def]

/-- Claim C6 amended: for a positive focal length, the estimated depth is
weakly decreasing in the bounding-box width, and strictly decreasing
whenever the `[0.3, 5.0]` clamp is inactive on both depths (the wider
box's raw depth is at least 0.3 m and the narrower box's raw depth is at
most 5.0 m); two widths whose raw depths fall beyond the same clamp bound
yield equal depths, as in the counterexample. -/
theorem estimate_3d_depth_antitone (focal fw fh : ℚ) (f1 f2 : FaceQ)
    (hfocal : 0 < focal) (h1 : 0 < f1.width) (h12 : f1.width < f2.width) :
    ((estimate_3d_position focal fw fh f2).z
      ≤ (estimate_3d_position focal fw fh f1).z)
    ∧ (0.3 ≤ focal * 0.2 / f2.width → focal * 0.2 / f1.width ≤ 5 →
        (estimate_3d_position focal fw fh f2).z
          < (estimate_3d_position focal fw fh f1).z) := by
  have h2 : 0 < f2.width := h1.trans h12
  have hnum : 0 < focal * 0.2 := by positivity
  have hraw : focal * 0.2 / f2.width < focal * 0.2 / f1.width :=
    div_lt_div_of_pos_left hnum h1 h12
  have hz : ∀ f : FaceQ, f.width ≠ 0 →
      (estimate_3d_position focal fw fh f).z
        = min (max (focal * 0.2 / f.width) 0.3) 5 := by
    intro f hf
    unfold estimate_3d_position depthOf rawDepth clipQ
    dsimp only
    rw [if_neg hf]
  rw [hz f1 h1.ne', hz f2 h2.ne']
  constructor
  · exact min_le_min (max_le_max hraw.le le_rfl) le_rfl
  · intro hlo hhi
    rw [max_eq_left hlo, max_eq_left (by linarith),
      min_eq_left (by linarith), min_eq_left (by linarith)]
    exact hraw

/-- Witness for the amended C6 theorem: at focal length 554 px, widths
100 px and 200 px give unclamped raw depths 1.108 m and 0.554 m, and the
estimated depth of the wider box is strictly smaller. -/
theorem estimate_3d_depth_antitone_witness :
    (estimate_3d_position 554 640 480 ⟨270, 100, 200, 100, 0.9⟩).z
      ≤ (estimate_3d_position 554 640 480 ⟨320, 100, 100, 100, 0.9⟩).z
    ∧ (estimate_3d_position 554 640 480 ⟨270, 100, 200, 100, 0.9⟩).z
      < (estimate_3d_position 554 640 480 ⟨320, 100, 100, 100, 0.9⟩).z := by
  constructor
  · exact (estimate_3d_depth_antitone 554 640 480
      ⟨320, 100, 100, 100, 0.9⟩ ⟨270, 100, 200, 100, 0.9⟩
      (by norm_num) (by norm_num) (by norm_num)).1
  · exact (estimate_3d_depth_antitone 554 640 480
      ⟨320, 100, 100, 100, 0.9⟩ ⟨270, 100, 200, 100, 0.9⟩
      (by norm_num) (by norm_num) (by norm_num)).2
      (by norm_num) (by norm_num)

/-! ## Claim C10: counterexample, amended theorem, witness -/

/-- Claim C10 is false as stated: constructing `HeadCommand(yaw=200)` does
not produce a command clamped to `yaw = 180` — the `Field(ge=-180,
le=180)` constraint rejects the value with a `ValidationError` before the
`clamp_angles` validator runs (the repository's own test
`test_head_command_exceeds_limits_raises_error` asserts this). -/
theorem mkHeadCommand_rejects_out_of_range :
    mkHeadCommand 200 0 0 = none
    ∧ mkHeadCommand 200 0 0 ≠ some ⟨180, 0, 0⟩ := by
  decide

/-- Claim C10 amended: every successfully constructed `HeadCommand` has
yaw in `[-180, 180]` and pitch and roll in `[-40, 40]` — enforced by the
`Field` range constraints, which reject (rather than clamp) out-of-range
values before the `clamp_angles` validator runs; on accepted values
`clamp_angles` is the identity, so the constructed command equals its
arguments.  Consequently the Safety Filter's out-of-range branches are
unreachable on validated commands: `enforceHead` returns such a command
unchanged with no violations. -/
theorem mkHeadCommand_in_envelope (yaw pitch roll : ℚ) (c : HeadCmd)
    (h : mkHeadCommand yaw pitch roll = some c) :
    (-180 ≤ c.yaw ∧ c.yaw ≤ 180 ∧ -40 ≤ c.pitch ∧ c.pitch ≤ 40
      ∧ -40 ≤ c.roll ∧ c.roll ≤ 40)
    ∧ c = ⟨yaw, pitch, roll⟩
    ∧ enforceHead c = (c, []) := by
  unfold mkHeadCommand at h
  split at h
  case isFalse => exact absurd h (by simp)
  case isTrue hb =>
    obtain ⟨h1, h2, h3, h4, h5, h6⟩ := hb
    have hc : c = ⟨yaw, pitch, roll⟩ := by
      have h7 := Option.some_injective _ h
      rw [← h7]
      unfold clamp_angles_yaw clamp_angles_pr
      rw [min_eq_right h2, max_eq_right h1, min_eq_right h4, max_eq_right h3,
        min_eq_right h6, max_eq_right h5]
    subst hc
    refine ⟨⟨h1, h2, h3, h4, h5, h6⟩, rfl, ?_⟩
    unfold enforceHead
    dsimp only
    rw [if_neg (not_lt.mpr h1), if_neg (not_lt.mpr h2),
      if_neg (not_lt.mpr h3), if_neg (not_lt.mpr h4),
      if_neg (not_lt.mpr h5), if_neg (not_lt.mpr h6)]
    rfl

/-- Witness for the amended C10 theorem at the in-range command
`(yaw=90, pitch=30, roll=-20)`. -/
theorem mkHeadCommand_in_envelope_witness :
    ((-180 ≤ (90 : ℚ) ∧ (90 : ℚ) ≤ 180 ∧ -40 ≤ (30 : ℚ) ∧ (30 : ℚ) ≤ 40
      ∧ -40 ≤ (-20 : ℚ) ∧ (-20 : ℚ) ≤ 40)
    ∧ (⟨90, 30, -20⟩ : HeadCmd) = ⟨90, 30, -20⟩
    ∧ enforceHead ⟨90, 30, -20⟩ = (⟨90, 30, -20⟩, [])) :=
  mkHeadCommand_in_envelope 90 30 (-20) ⟨90, 30, -20⟩ (by decide)

/-! ## Claim C7: selection loop characterization -/

/-- Selector `firstMax` never returns `none` on a non-empty list. -/
lemma firstMax_cons_ne_none (f : TrackQ → ℚ) (t : TrackQ) (rest : List TrackQ) :
    firstMax f (t :: rest) ≠ none := by
  cases h2 : firstMax f rest with
  | none => simp [firstMax, h2]
  | some u =>
    simp only [firstMax, h2]
    split <;> simp

/-- The selection loop of `select_primary_face`, started at any running
best, computes the first maximal-score element (when it beats the running
best). -/
lemma selectLoop_eq (sqrtA : ℚ → ℚ) (fw fh : ℚ) (l : List TrackQ) :
    ∀ (b : ℚ) (bi : Option ℕ),
    selectLoop sqrtA fw fh l b bi =
      match firstMax (scoreOf sqrtA fw fh) l with
      | none => (b, bi)
      | some u =>
          if b < scoreOf sqrtA fw fh u
          then (scoreOf sqrtA fw fh u, some u.id) else (b, bi) := by
  induction l with
  | nil => intro b bi; rfl
  | cons t rest ih =>
    intro b bi
    cases hm : firstMax (scoreOf sqrtA fw fh) rest with
    | none =>
      simp only [selectLoop, firstMax, hm, ih]
    | some u =>
      by_cases h1 : scoreOf sqrtA fw fh t < scoreOf sqrtA fw fh u
      · simp only [selectLoop, firstMax, hm, if_pos h1, ih]
        split_ifs <;> first | rfl | linarith
      · simp only [selectLoop, firstMax, hm, if_neg h1, ih]
        split_ifs <;> first | rfl | linarith

/-- Any element returned by `firstMax` splits the list into a prefix of
strictly smaller scores, the element itself, and a tail; it carries the
maximal score of the whole list. -/
lemma firstMax_spec (f : TrackQ → ℚ) : ∀ (l : List TrackQ) (u : TrackQ),
    firstMax f l = some u →
    ∃ pre post, l = pre ++ u :: post
      ∧ (∀ v ∈ pre, f v < f u) ∧ (∀ v ∈ l, f v ≤ f u) := by
  intro l
  induction l with
  | nil => intro u h; cases h
  | cons t rest ih =>
    intro u h
    cases hm : firstMax f rest with
    | none =>
      have hrest : rest = [] := by
        cases rest with
        | nil => rfl
        | cons a as => exact absurd hm (firstMax_cons_ne_none f a as)
      subst hrest
      have hut : t = u := by simpa [firstMax] using h
      subst hut
      exact ⟨[], [], rfl, by simp, by simp⟩
    | some v =>
      simp only [firstMax, hm] at h
      by_cases hlt : f t < f v
      · rw [if_pos hlt] at h
        have huv : v = u := Option.some_inj.mp h
        rw [← huv]
        obtain ⟨pre, post, heq, hpre, hmax⟩ := ih v hm
        refine ⟨t :: pre, post, by rw [heq]; rfl, ?_, ?_⟩
        · intro w hw
          rcases List.mem_cons.mp hw with rfl | hw2
          · exact hlt
          · exact hpre w hw2
        · intro w hw
          rcases List.mem_cons.mp hw with rfl | hw2
          · exact hlt.le
          · exact hmax w hw2
      · rw [if_neg hlt] at h
        have hut : t = u := Option.some_inj.mp h
        obtain ⟨pre2, post2, heq2, hpre2, hmax2⟩ := ih v hm
        rw [← hut]
        refine ⟨[], rest, rfl, by simp, ?_⟩
        intro w hw
        rcases List.mem_cons.mp hw with rfl | hw2
        · exact le_rfl
        · exact (hmax2 w hw2).trans (not_lt.mp hlt)

/-- Claim C7 amended: `select_primary_face` returns `None` exactly when
every track's total score is at most the initial running best `-1.0` — in
particular when the track list is empty, but also for non-empty lists
whose tracks all score ≤ -1 (possible for centroids far outside the
frame, see the counterexample).  Whenever it returns an id, that id
belongs to the first track attaining the maximal total score (earlier
tracks score strictly less, no track scores more), which scores above
-1; ties therefore go to the track evaluated first. -/
theorem select_primary_face_spec (sqrtA : ℚ → ℚ) (tracks : List TrackQ)
    (fw fh : ℚ) :
    (select_primary_face sqrtA tracks fw fh = none
      ↔ ∀ t ∈ tracks, scoreOf sqrtA fw fh t ≤ -1)
    ∧ (∀ i, select_primary_face sqrtA tracks fw fh = some i →
        ∃ t pre post, tracks = pre ++ t :: post ∧ t.id = i
          ∧ -1 < scoreOf sqrtA fw fh t
          ∧ (∀ v ∈ pre, scoreOf sqrtA fw fh v < scoreOf sqrtA fw fh t)
          ∧ (∀ v ∈ tracks, scoreOf sqrtA fw fh v ≤ scoreOf sqrtA fw fh t)) := by
  unfold select_primary_face
  cases tracks with
  | nil => simp
  | cons t rest =>
    rw [if_neg (by simp)]
    rw [selectLoop_eq]
    cases hm : firstMax (scoreOf sqrtA fw fh) (t :: rest) with
    | none => exact absurd hm (firstMax_cons_ne_none (scoreOf sqrtA fw fh) t rest)
    | some u =>
      obtain ⟨pre, post, heq, hpre, hmax⟩ :=
        firstMax_spec (scoreOf sqrtA fw fh) (t :: rest) u hm
      have humem : u ∈ t :: rest := by
        rw [heq]
        exact List.mem_append_right _ (List.mem_cons_self _ _)
      dsimp only
      constructor
      · constructor
        · intro hnone w hw
          by_cases hgt : -1 < scoreOf sqrtA fw fh u
          · rw [if_pos hgt] at hnone
            simp at hnone
          · exact (hmax w hw).trans (not_lt.mp hgt)
        · intro hall
          rw [if_neg (not_lt.mpr (hall u humem))]
      · intro i hi
        by_cases hgt : -1 < scoreOf sqrtA fw fh u
        · rw [if_pos hgt] at hi
          have hui : u.id = i := by simpa using hi
          exact ⟨u, pre, post, heq, hui, hgt, hpre, hmax⟩
        · rw [if_neg hgt] at hi
          simp at hi

/-- Checks that `mySqrt` agrees with the real square root on the inputs
it is used at. -/
lemma mySqrt_exact :
    mySqrt 1960000 ^ 2 = 1960000 ∧ 0 ≤ mySqrt 1960000
    ∧ mySqrt 160000 ^ 2 = 160000 ∧ 0 ≤ mySqrt 160000
    ∧ mySqrt 0 ^ 2 = 0 ∧ 0 ≤ mySqrt 0 := by
  norm_num [mySqrt]

/-- Claim C7 is false as stated: `select_primary_face` on the non-empty
track list `[ceTrackFar]` returns `None`, because the track's total score
`0.4·(1 - 1400/400) + 0.4·0 + 0.2·0 = -1` does not strictly exceed the
initial `best_score = -1.0`. -/
theorem select_primary_face_none_on_nonempty :
    select_primary_face mySqrt [ceTrackFar] 640 480 = none
    ∧ ([ceTrackFar] : List TrackQ) ≠ [] := by
  constructor
  · norm_num [select_primary_face, selectLoop, scoreOf, mySqrt, ceTrackFar]
  · simp

/-- Witness for the amended C7 theorem: on the singleton list
`[goodTrack]` the selection returns id 3, the first (only) maximal-score
track, whose score 0.6 exceeds -1. -/
theorem select_primary_face_spec_witness :
    ∃ t pre post, ([goodTrack] : List TrackQ) = pre ++ t :: post
      ∧ t.id = 3
      ∧ -1 < scoreOf mySqrt 640 480 t
      ∧ (∀ v ∈ pre, scoreOf mySqrt 640 480 v < scoreOf mySqrt 640 480 t)
      ∧ (∀ v ∈ ([goodTrack] : List TrackQ),
          scoreOf mySqrt 640 480 v ≤ scoreOf mySqrt 640 480 t) :=
  (select_primary_face_spec mySqrt [goodTrack] 640 480).2 3
    (by norm_num [select_primary_face, selectLoop, scoreOf, mySqrt, goodTrack])

/-! ## Claim C8: persistent id assignment -/

/-- Ids assigned by the creation loop of one `update` call are strictly
increasing, and all lie in `[next_id, next_id')` where `next_id'` is the
counter after the call (which never decreases). -/
lemma createLoop_spec (matched : List ℕ) : ∀ (idxs : List ℕ) (s : TrackerS),
    s.nextId ≤ (createLoop matched idxs s).1.nextId
    ∧ List.Pairwise (· < ·) (createLoop matched idxs s).2
    ∧ ∀ a ∈ (createLoop matched idxs s).2,
        s.nextId ≤ a ∧ a < (createLoop matched idxs s).1.nextId := by
  intro idxs
  induction idxs with
  | nil =>
    intro s
    refine ⟨le_rfl, List.Pairwise.nil, ?_⟩
    intro a ha
    cases ha
  | cons i rest ih =>
    intro s
    by_cases hi : i ∈ matched
    · simpa only [createLoop, if_pos hi] using ih s
    · obtain ⟨ha, hb, hc⟩ := ih ⟨s.nextId + 1, s.trackIds ++ [s.nextId]⟩
      simp only [createLoop, if_neg hi]
      refine ⟨le_trans (Nat.le_succ _) ha, ?_, ?_⟩
      · exact List.Pairwise.cons
          (fun a ha2 => Nat.lt_of_succ_le (hc a ha2).1) hb
      · intro a ha2
        rcases List.mem_cons.mp ha2 with rfl | ha3
        · exact ⟨le_rfl, Nat.lt_of_succ_le ha⟩
        · exact ⟨le_trans (Nat.le_succ _) (hc a ha3).1, (hc a ha3).2⟩

/-- Running `runOps` over a reset-free operation sequence: the `next_id` counter
never decreases, and the assigned ids are strictly increasing in
assignment order, all within `[next_id, next_id')`. -/
lemma runOps_spec : ∀ (ops : List TrackerOp) (s : TrackerS),
    TrackerOp.reset ∉ ops →
    s.nextId ≤ (runOps s ops).1.nextId
    ∧ List.Pairwise (· < ·) (runOps s ops).2
    ∧ ∀ a ∈ (runOps s ops).2,
        s.nextId ≤ a ∧ a < (runOps s ops).1.nextId := by
  intro ops
  induction ops with
  | nil =>
    intro s _
    refine ⟨le_rfl, List.Pairwise.nil, ?_⟩
    intro a ha
    cases ha
  | cons op rest ih =>
    intro s hno
    have hop : op ≠ TrackerOp.reset := fun he => hno (he ▸ List.mem_cons_self _ _)
    have hrest : TrackerOp.reset ∉ rest := fun he => hno (List.mem_cons_of_mem _ he)
    cases op with
    | reset => exact absurd rfl hop
    | update n m st =>
      obtain ⟨hc1, hc2, hc3⟩ := createLoop_spec m (List.range n) s
      obtain ⟨hi1, hi2, hi3⟩ :=
        ih ⟨(createLoop m (List.range n) s).1.nextId,
          (createLoop m (List.range n) s).1.trackIds.filter
            (fun i => i ∉ st)⟩ hrest
      simp only [runOps, stepOp, updateStep]
      refine ⟨le_trans hc1 hi1, ?_, ?_⟩
      · rw [List.pairwise_append]
        refine ⟨hc2, hi2, ?_⟩
        intro a ha b hb
        exact Nat.lt_of_lt_of_le (hc3 a ha).2 (hi3 b hb).1
      · intro a ha
        rcases List.mem_append.mp ha with ha2 | ha2
        · exact ⟨(hc3 a ha2).1,
            Nat.lt_of_lt_of_le (hc3 a ha2).2 hi1⟩
        · exact ⟨le_trans hc1 (hi3 a ha2).1, (hi3 a ha2).2⟩

/-- Claim C8 is false as stated: over the tracker's lifetime the sequence
`update` (creates id 1), `reset` (sets `next_id` back to 1, as the
repository's `test_reset_allows_fresh_start` asserts), `update` assigns
the id list `[1, 1]` — id 1 is reused. -/
theorem tracker_id_reused_after_reset :
    (runOps initTracker ceOps).2 = [1, 1]
    ∧ ¬ (runOps initTracker ceOps).2.Nodup := by
  constructor
  · decide
  · decide

/-- Claim C8 amended: as long as `reset()` is not called, every id
assigned by the tracker is the next unused integer — over any sequence of
`update` calls (with arbitrary matching and stale-expiry outcomes, so in
particular across deletions of tracks) the assigned ids are strictly
increasing and never reused.  `reset()`, however, restarts the counter at
1, after which ids are reused (see the counterexample). -/
theorem tracker_ids_strictly_increasing (ops : List TrackerOp)
    (h : TrackerOp.reset ∉ ops) :
    List.Pairwise (· < ·) (runOps initTracker ops).2
    ∧ (runOps initTracker ops).2.Nodup := by
  obtain ⟨_, hp, _⟩ := runOps_spec ops initTracker h
  exact ⟨hp, hp.imp Nat.ne_of_lt⟩

/-- Witness for the amended C8 theorem: the reset-free sequence
`update` with two unmatched detections (ids 1, 2) followed by `update`
with one matched detection (no id assigned) yields the strictly
increasing, duplicate-free id list `[1, 2]`. -/
theorem tracker_ids_strictly_increasing_witness :
    List.Pairwise (· < ·)
      (runOps initTracker
        [TrackerOp.update 2 [] [], TrackerOp.update 1 [0] []]).2
    ∧ (runOps initTracker
        [TrackerOp.update 2 [] [], TrackerOp.update 1 [0] []]).2.Nodup :=
  tracker_ids_strictly_increasing
    [TrackerOp.update 2 [] [], TrackerOp.update 1 [0] []] (by decide)

end Ranger
